import Mathlib

/-!
Shallow embedding of `tools/tracing/rtla/src/timerlat_top.c`: the per-CPU
statistics store, the sample aggregator, the renderer and the monitor loop,
together with proofs of the specified properties.

Machine integers: all latency fields in the source are `unsigned long long`
(64-bit), so latencies are natural numbers and the running sum wraps modulo
`2 ^ 64`.  The `int` counters only ever increase by one per sample and are
modelled as natural numbers.
-/

namespace TimerlatTop

/-- Modulus of the C `unsigned long long` fields. -/
def U64_MOD : Nat := 2 ^ 64

/-- Modelled from the spec: `update_min` from `utils.h` (not in the tree);
§4.1 says `min = min(min, latency)`, realised in C as
`(*a > *b ? (*a = *b) : (*a))`. -/
def update_min (a b : Nat) : Nat := if a > b then b else a

/-- Modelled from the spec: `update_sum` from `utils.h` (not in the tree);
§4.1 says `sum += latency` on an `unsigned long long` accumulator, which
wraps modulo `2 ^ 64`. -/
def update_sum (a b : Nat) : Nat := (a + b) % U64_MOD

/-- Modelled from the spec: `update_max` from `utils.h` (not in the tree);
§4.1 says `max = max(max, latency)`, realised in C as
`(*a < *b ? (*a = *b) : (*a))`. -/
def update_max (a b : Nat) : Nat := if a < b then b else a

/-- `struct timerlat_top_cpu`: running aggregates for one CPU. -/
structure timerlat_top_cpu where
  irq_count : Nat
  thread_count : Nat
  cur_irq : Nat
  min_irq : Nat
  sum_irq : Nat
  max_irq : Nat
  cur_thread : Nat
  min_thread : Nat
  sum_thread : Nat
  max_thread : Nat
deriving Repr, DecidableEq

/-- One entry as produced by `timerlat_alloc_top`: `calloc` zeroes every
field, then the loop sets `min_irq = ~0` and `min_thread = ~0`, which on an
`unsigned long long` is `2 ^ 64 - 1`. -/
def initCpu : timerlat_top_cpu :=
  { irq_count := 0, thread_count := 0
    cur_irq := 0, min_irq := U64_MOD - 1, sum_irq := 0, max_irq := 0
    cur_thread := 0, min_thread := U64_MOD - 1, sum_thread := 0, max_thread := 0 }

/-- `struct timerlat_top_data`: the per-CPU table and its size. -/
structure timerlat_top_data where
  cpu_data : List timerlat_top_cpu
  nr_cpus : Nat

/-- `timerlat_alloc_top` (successful allocation): `nr_cpus` entries, all
zeroed with the min fields set to the `~0` sentinel. -/
def timerlat_alloc_top (nr_cpus : Nat) : timerlat_top_data :=
  { cpu_data := List.replicate nr_cpus initCpu, nr_cpus := nr_cpus }

/-- The body of `timerlat_top_update` acting on the selected entry: the C
code dispatches on `if (!thread)`, bumps the count, overwrites `cur`, and
folds the latency into min, sum and max. -/
def timerlat_top_update_cpu (d : timerlat_top_cpu) (thread latency : Nat) :
    timerlat_top_cpu :=
  if thread = 0 then
    { d with irq_count := d.irq_count + 1
             cur_irq := latency
             min_irq := update_min d.min_irq latency
             sum_irq := update_sum d.sum_irq latency
             max_irq := update_max d.max_irq latency }
  else
    { d with thread_count := d.thread_count + 1
             cur_thread := latency
             min_thread := update_min d.min_thread latency
             sum_thread := update_sum d.sum_thread latency
             max_thread := update_max d.max_thread latency }

/-- `timerlat_top_update`: the C code indexes `data->cpu_data[cpu]` with the
raw `cpu` value and performs no bounds check; the total embedding returns
`none` exactly when that access would fall outside the table. -/
def timerlat_top_update (data : timerlat_top_data) (cpu thread latency : Nat) :
    Option timerlat_top_data :=
  if h : cpu < data.cpu_data.length then
    some { data with
              cpu_data := data.cpu_data.set cpu
                (timerlat_top_update_cpu (data.cpu_data.get ⟨cpu, h⟩) thread latency) }
  else
    none

/-- The fields `timerlat_top_handler` extracts from a `tep_record` /
`tep_event` pair: the record CPU and the `context` and `timer_latency`
event fields (both `unsigned long long`). -/
structure tep_record where
  cpu : Nat
  context : Nat
  timer_latency : Nat

/-- `timerlat_top_handler`: forwards `record->cpu` and the two extracted
fields to `timerlat_top_update`, with no validation of any of them. -/
def timerlat_top_handler (data : timerlat_top_data) (record : tep_record) :
    Option timerlat_top_data :=
  timerlat_top_update data record.cpu record.context record.timer_latency

/-- A sequence of same-context samples for one CPU applied in arrival
order; `t` is the `context` field shared by the sequence (`0` = IRQ). -/
def applySamples (t : Nat) (l : List Nat) (d : timerlat_top_cpu) :
    timerlat_top_cpu :=
  l.foldl (fun d latency => timerlat_top_update_cpu d t latency) d

example :
    (applySamples 0 [100, 50] initCpu).irq_count = 2 ∧
    (applySamples 0 [100, 50] initCpu).min_irq = 50 ∧
    (applySamples 0 [100, 50] initCpu).max_irq = 100 ∧
    (applySamples 0 [100, 50] initCpu).sum_irq = 150 := by decide

/-- One abstract unit of rendered output.  Formatting widths and escape
sequences are irrelevant to the claims; what matters is which items are
emitted and which numeric values they carry. -/
inductive OutItem where
  | clearScreen
  | header
  | rowHead (cpu : Nat) (irq_count : Nat)
  | dash
  | value (v : Nat)
deriving Repr, DecidableEq

/-- The fields of `struct timerlat_top_params` the renderer and the loop
read.  `cpus` is whether a `-c` list was given (`params->cpus != NULL`);
`monitored_cpus` is the per-CPU membership array it fills. -/
structure timerlat_top_params where
  quiet : Bool
  output_divisor : Nat
  cpus : Bool
  monitored_cpus : Nat → Bool
  trace_output : Bool

/-- `clear_terminal`: emits the reset escape unless `config_debug` is set. -/
def clear_terminal (config_debug : Bool) : List OutItem :=
  if config_debug = false then [OutItem.clearScreen] else []

/-- `timerlat_top_header`: unconditionally prints the two header lines
(title plus column labels), abstracted as one item. -/
def timerlat_top_header : List OutItem := [OutItem.header]

/-- `timerlat_top_print`: the row for one CPU.  Returns nothing when the
divisor is zero or when both counts are zero; otherwise the row head
followed by four IRQ cells and four thread cells, dashes when that
context has no samples. -/
def timerlat_top_print (params : timerlat_top_params) (data : timerlat_top_data)
    (cpu : Nat) : List OutItem :=
  let cpu_data := data.cpu_data.getD cpu initCpu
  let divisor := params.output_divisor
  if divisor = 0 then []
  else if cpu_data.irq_count = 0 ∧ cpu_data.thread_count = 0 then []
  else
    [OutItem.rowHead cpu cpu_data.irq_count] ++
    (if cpu_data.irq_count = 0 then
      [OutItem.dash, OutItem.dash, OutItem.dash, OutItem.dash]
    else
      [OutItem.value (cpu_data.cur_irq / divisor),
       OutItem.value (cpu_data.min_irq / divisor),
       OutItem.value (cpu_data.sum_irq / cpu_data.irq_count / divisor),
       OutItem.value (cpu_data.max_irq / divisor)]) ++
    (if cpu_data.thread_count = 0 then
      [OutItem.dash, OutItem.dash, OutItem.dash, OutItem.dash]
    else
      [OutItem.value (cpu_data.cur_thread / divisor),
       OutItem.value (cpu_data.min_thread / divisor),
       OutItem.value (cpu_data.sum_thread / cpu_data.thread_count / divisor),
       OutItem.value (cpu_data.max_thread / divisor)])

/-- `timerlat_print_stats`: clears the terminal unless quiet, prints the
header, then one (possibly empty) row per CPU index below `nr_cpus`,
skipping indices outside a configured `-c` list. -/
def timerlat_print_stats (config_debug : Bool) (nr_cpus : Nat)
    (params : timerlat_top_params) (data : timerlat_top_data) : List OutItem :=
  (if params.quiet = false then clear_terminal config_debug else []) ++
  timerlat_top_header ++
  (((List.range nr_cpus).map fun i =>
    if params.cpus = true ∧ params.monitored_cpus i = false then []
    else timerlat_top_print params data i)).flatten

example :
    timerlat_print_stats false 2 ⟨true, 1000, false, fun _ => true, false⟩
      (timerlat_alloc_top 2) = [OutItem.header] := by decide

/-- The external observations one iteration of the `while (!stop_tracing)`
loop in `timerlat_top_main` can make: the stop flag at the loop head, the
result of `tracefs_iterate_raw_events` (`ingest_ok` is `retval >= 0`), and
the `tracefs_trace_is_on` query at the loop tail. -/
structure IterIn where
  stop_tracing : Bool
  ingest_ok : Bool
  trace_is_on : Bool
deriving Repr, DecidableEq

/-- How the `RUNNING` loop terminated. -/
inductive ExitKind where
  | stopped
  | traceOff
  | ingestErr
deriving Repr, DecidableEq

/-- The `while (!stop_tracing)` loop of `timerlat_top_main`, driven by a
finite schedule of external observations.  Returns the number of
`timerlat_print_stats` renders performed inside the loop and how the loop
exited; `none` when the schedule runs out before the loop does. -/
def runLoop (quiet : Bool) : List IterIn → Option (Nat × ExitKind)
  | [] => none
  | it :: rest =>
    if it.stop_tracing = true then some (0, ExitKind.stopped)
    else if it.ingest_ok = false then some (0, ExitKind.ingestErr)
    else
      let r := if quiet then 0 else 1
      if it.trace_is_on = false then some (r, ExitKind.traceOff)
      else (runLoop quiet rest).map fun p => (r + p.1, p.2)

/-- What `timerlat_top_main` did after parsing and initialisation. -/
structure MainOut where
  loop_renders : Nat
  final_renders : Nat
  return_value : Nat
  saved_trace : Bool
  freed : Bool
deriving Repr, DecidableEq

/-- The tail of `timerlat_top_main` from the `RUNNING` loop on.  On an
ingestion error the code jumps to `out_top` with `return_value` still `1`,
skipping the final `timerlat_print_stats` and the save; otherwise it
renders once, sets `return_value = 0`, and saves the trace exactly when a
fresh `tracefs_trace_is_on` query (`final_trace_on`) reports inactive and
`params->trace_output` is set.  Both paths free the tool data. -/
def timerlat_top_main (quiet trace_output : Bool) (iters : List IterIn)
    (final_trace_on : Bool) : Option MainOut :=
  (runLoop quiet iters).map fun p =>
    match p.2 with
    | ExitKind.ingestErr =>
      { loop_renders := p.1, final_renders := 0, return_value := 1
        saved_trace := false, freed := true }
    | _ =>
      { loop_renders := p.1, final_renders := 1, return_value := 0
        saved_trace := !final_trace_on && trace_output
        freed := true }

example :
    timerlat_top_main false true [⟨false, true, true⟩, ⟨false, true, false⟩] false
      = some { loop_renders := 2, final_renders := 1, return_value := 0
               saved_trace := true, freed := true } := by decide

/-! Helper lemmas about the aggregate folds. -/

theorem update_min_eq (a b : Nat) : update_min a b = min a b := by
  unfold update_min; split <;> omega

theorem update_max_eq (a b : Nat) : update_max a b = max a b := by
  unfold update_max; split <;> omega

theorem update_min_right_comm (z x y : Nat) :
    update_min (update_min z x) y = update_min (update_min z y) x := by
  simp only [update_min_eq]; omega

theorem update_max_right_comm (z x y : Nat) :
    update_max (update_max z x) y = update_max (update_max z y) x := by
  simp only [update_max_eq]; omega

theorem update_sum_right_comm (z x y : Nat) :
    update_sum (update_sum z x) y = update_sum (update_sum z y) x := by
  unfold update_sum
  rw [Nat.mod_add_mod, Nat.mod_add_mod, Nat.add_right_comm]

theorem foldl_update_min_le (l : List Nat) (b : Nat) :
    l.foldl update_min b ≤ b ∧ ∀ x ∈ l, l.foldl update_min b ≤ x := by
  induction l generalizing b with
  | nil => simp
  | cons y ys ih =>
    simp only [List.foldl_cons]
    obtain ⟨h1, h2⟩ := ih (update_min b y)
    have hy : update_min b y ≤ b ∧ update_min b y ≤ y := by
      unfold update_min; split <;> omega
    refine ⟨le_trans h1 hy.1, ?_⟩
    intro x hx
    rcases List.mem_cons.mp hx with rfl | hx
    · exact le_trans h1 hy.2
    · exact h2 x hx

theorem le_foldl_update_max (l : List Nat) (b : Nat) :
    b ≤ l.foldl update_max b ∧ ∀ x ∈ l, x ≤ l.foldl update_max b := by
  induction l generalizing b with
  | nil => simp
  | cons y ys ih =>
    simp only [List.foldl_cons]
    obtain ⟨h1, h2⟩ := ih (update_max b y)
    have hy : b ≤ update_max b y ∧ y ≤ update_max b y := by
      unfold update_max; split <;> omega
    refine ⟨le_trans hy.1 h1, ?_⟩
    intro x hx
    rcases List.mem_cons.mp hx with rfl | hx
    · exact le_trans hy.2 h1
    · exact h2 x hx

theorem foldl_update_sum_eq (l : List Nat) (b : Nat) (hb : b < U64_MOD) :
    l.foldl update_sum b = (b + l.sum) % U64_MOD := by
  induction l generalizing b with
  | nil => simpa using (Nat.mod_eq_of_lt hb).symm
  | cons y ys ih =>
    have hstep : update_sum b y < U64_MOD :=
      Nat.mod_lt _ (by unfold U64_MOD; positivity)
    simp only [List.foldl_cons, List.sum_cons, ih (update_sum b y) hstep]
    unfold update_sum
    rw [Nat.mod_add_mod, Nat.add_assoc]

theorem foldl_right_comm_perm (f : Nat → Nat → Nat)
    (hf : ∀ z x y, f (f z x) y = f (f z y) x)
    {l l' : List Nat} (h : l.Perm l') : ∀ b, l.foldl f b = l'.foldl f b := by
  induction h with
  | nil => intro b; rfl
  | cons x _ ih => intro b; simp only [List.foldl_cons]; exact ih _
  | swap x y l => intro b; simp only [List.foldl_cons]; rw [hf]
  | trans _ _ ih1 ih2 => intro b; rw [ih1 b, ih2 b]

theorem mul_length_le_sum (l : List Nat) (m : Nat) (h : ∀ x ∈ l, m ≤ x) :
    m * l.length ≤ l.sum := by
  induction l with
  | nil => simp
  | cons y ys ih =>
    have hy := h y (List.mem_cons_self y ys)
    have hys := ih fun x hx => h x (List.mem_cons_of_mem y hx)
    simp only [List.length_cons, List.sum_cons, Nat.mul_succ]
    omega

theorem sum_le_mul_length (l : List Nat) (K : Nat) (h : ∀ x ∈ l, x ≤ K) :
    l.sum ≤ K * l.length := by
  induction l with
  | nil => simp
  | cons y ys ih =>
    have hy := h y (List.mem_cons_self y ys)
    have hys := ih fun x hx => h x (List.mem_cons_of_mem y hx)
    simp only [List.length_cons, List.sum_cons, Nat.mul_succ]
    omega

/-! Closed forms for a same-context sample sequence. -/

theorem getLast?_getD_cons (x d : Nat) (xs : List Nat) :
    (x :: xs).getLast?.getD d = xs.getLast?.getD x := by
  cases hx : xs.getLast? with
  | none =>
    have h0 : xs = [] := List.getLast?_eq_none_iff.mp hx
    simp [h0]
  | some y =>
    have hmem : (x :: xs).getLast? = some y := List.mem_getLast?_cons (by simp [hx])
    simp [hmem, hx]

theorem applySamples_irq (l : List Nat) (d : timerlat_top_cpu) :
    applySamples 0 l d =
      { d with irq_count := d.irq_count + l.length
               cur_irq := l.getLastD d.cur_irq
               min_irq := l.foldl update_min d.min_irq
               sum_irq := l.foldl update_sum d.sum_irq
               max_irq := l.foldl update_max d.max_irq } := by
  induction l generalizing d with
  | nil => rfl
  | cons x xs ih =>
    show applySamples 0 xs (timerlat_top_update_cpu d 0 x) = _
    rw [ih]
    simp [timerlat_top_update_cpu, getLast?_getD_cons]
    omega

theorem applySamples_thread (t : Nat) (ht : t ≠ 0) (l : List Nat)
    (d : timerlat_top_cpu) :
    applySamples t l d =
      { d with thread_count := d.thread_count + l.length
               cur_thread := l.getLastD d.cur_thread
               min_thread := l.foldl update_min d.min_thread
               sum_thread := l.foldl update_sum d.sum_thread
               max_thread := l.foldl update_max d.max_thread } := by
  induction l generalizing d with
  | nil => rfl
  | cons x xs ih =>
    show applySamples t xs (timerlat_top_update_cpu d t x) = _
    rw [ih]
    simp [timerlat_top_update_cpu, ht, getLast?_getD_cons]
    omega

/-- C1: for every sequence of samples applied via the aggregator to one CPU
and one context (IRQ when the context field is `0`, thread otherwise),
after each application the stored min is at most every latency seen so far,
every latency seen so far is at most the stored max, and whenever that
context's count is positive, min is at most max. -/
theorem c1_monotonic_extremes (t : Nat) (l : List Nat) :
    (t = 0 →
      (∀ x ∈ l, (applySamples t l initCpu).min_irq ≤ x ∧
        x ≤ (applySamples t l initCpu).max_irq) ∧
      (0 < (applySamples t l initCpu).irq_count →
        (applySamples t l initCpu).min_irq ≤ (applySamples t l initCpu).max_irq)) ∧
    (t ≠ 0 →
      (∀ x ∈ l, (applySamples t l initCpu).min_thread ≤ x ∧
        x ≤ (applySamples t l initCpu).max_thread) ∧
      (0 < (applySamples t l initCpu).thread_count →
        (applySamples t l initCpu).min_thread ≤ (applySamples t l initCpu).max_thread)) := by
  constructor
  · rintro rfl
    rw [applySamples_irq]
    simp only
    refine ⟨?_, ?_⟩
    · intro x hx
      exact ⟨(foldl_update_min_le l initCpu.min_irq).2 x hx,
             (le_foldl_update_max l initCpu.max_irq).2 x hx⟩
    · intro hpos
      have hne : l ≠ [] := by
        intro hnil
        rw [hnil] at hpos
        simp [initCpu] at hpos
      obtain ⟨x, hx⟩ := List.exists_mem_of_ne_nil l hne
      exact le_trans ((foldl_update_min_le l initCpu.min_irq).2 x hx)
        ((le_foldl_update_max l initCpu.max_irq).2 x hx)
  · intro ht
    rw [applySamples_thread t ht]
    simp only
    refine ⟨?_, ?_⟩
    · intro x hx
      exact ⟨(foldl_update_min_le l initCpu.min_thread).2 x hx,
             (le_foldl_update_max l initCpu.max_thread).2 x hx⟩
    · intro hpos
      have hne : l ≠ [] := by
        intro hnil
        rw [hnil] at hpos
        simp [initCpu] at hpos
      obtain ⟨x, hx⟩ := List.exists_mem_of_ne_nil l hne
      exact le_trans ((foldl_update_min_le l initCpu.min_thread).2 x hx)
        ((le_foldl_update_max l initCpu.max_thread).2 x hx)

/-- Witness for C1 at the concrete IRQ sequence `[3, 1, 2]`. -/
theorem c1_monotonic_extremes_witness :
    (applySamples 0 [3, 1, 2] initCpu).min_irq ≤ 1 ∧
    1 ≤ (applySamples 0 [3, 1, 2] initCpu).max_irq ∧
    (applySamples 0 [3, 1, 2] initCpu).min_irq ≤
      (applySamples 0 [3, 1, 2] initCpu).max_irq := by
  obtain ⟨h1, h2⟩ := (c1_monotonic_extremes 0 [3, 1, 2]).1 rfl
  exact ⟨(h1 1 (by decide)).1, (h1 1 (by decide)).2, h2 (by decide)⟩

/-- C2 (counterexample): the claim as stated fails on the code because the
`unsigned long long` sum wraps modulo `2 ^ 64`.  Two IRQ samples of
latency `2 ^ 63` give a stored sum of `0`, so the truncated average `0` is
strictly below the stored min `2 ^ 63`. -/
theorem c2_average_bound_cex :
    0 < (applySamples 0 [2 ^ 63, 2 ^ 63] initCpu).irq_count ∧
    (applySamples 0 [2 ^ 63, 2 ^ 63] initCpu).sum_irq /
        (applySamples 0 [2 ^ 63, 2 ^ 63] initCpu).irq_count <
      (applySamples 0 [2 ^ 63, 2 ^ 63] initCpu).min_irq := by decide

/-- C2 (amended): for every sequence of samples applied to one CPU and one
context whose true total latency is below `2 ^ 64` (so the 64-bit sum
accumulator does not wrap), whenever that context's count is positive the
truncating quotient sum/count lies between the stored min and max. -/
theorem c2_average_bound (t : Nat) (l : List Nat) (hsum : l.sum < U64_MOD) :
    (t = 0 → 0 < (applySamples t l initCpu).irq_count →
      (applySamples t l initCpu).min_irq ≤
        (applySamples t l initCpu).sum_irq / (applySamples t l initCpu).irq_count ∧
      (applySamples t l initCpu).sum_irq / (applySamples t l initCpu).irq_count ≤
        (applySamples t l initCpu).max_irq) ∧
    (t ≠ 0 → 0 < (applySamples t l initCpu).thread_count →
      (applySamples t l initCpu).min_thread ≤
        (applySamples t l initCpu).sum_thread / (applySamples t l initCpu).thread_count ∧
      (applySamples t l initCpu).sum_thread / (applySamples t l initCpu).thread_count ≤
        (applySamples t l initCpu).max_thread) := by
  have hM : (0 : Nat) < U64_MOD := by unfold U64_MOD; positivity
  constructor
  · rintro rfl hpos
    rw [applySamples_irq] at hpos ⊢
    simp only [initCpu] at hpos ⊢
    rw [foldl_update_sum_eq l 0 hM, Nat.zero_add, Nat.mod_eq_of_lt hsum]
    simp only [Nat.zero_add] at hpos ⊢
    have hmin := (foldl_update_min_le l (U64_MOD - 1)).2
    have hmax := (le_foldl_update_max l 0).2
    constructor
    · exact (Nat.le_div_iff_mul_le hpos).mpr
        (mul_length_le_sum l _ fun x hx => hmin x hx)
    · exact Nat.div_le_of_le_mul
        (le_trans (sum_le_mul_length l _ fun x hx => hmax x hx)
          (Nat.le_of_eq (Nat.mul_comm _ _)))
  · intro ht hpos
    rw [applySamples_thread t ht] at hpos ⊢
    simp only [initCpu] at hpos ⊢
    rw [foldl_update_sum_eq l 0 hM, Nat.zero_add, Nat.mod_eq_of_lt hsum]
    simp only [Nat.zero_add] at hpos ⊢
    have hmin := (foldl_update_min_le l (U64_MOD - 1)).2
    have hmax := (le_foldl_update_max l 0).2
    constructor
    · exact (Nat.le_div_iff_mul_le hpos).mpr
        (mul_length_le_sum l _ fun x hx => hmin x hx)
    · exact Nat.div_le_of_le_mul
        (le_trans (sum_le_mul_length l _ fun x hx => hmax x hx)
          (Nat.le_of_eq (Nat.mul_comm _ _)))

/-- Witness for C2 (amended) at the IRQ sequence `[100, 50]`: the stored
average `75` lies between min `50` and max `100`. -/
theorem c2_average_bound_witness :
    (applySamples 0 [100, 50] initCpu).min_irq ≤
      (applySamples 0 [100, 50] initCpu).sum_irq /
        (applySamples 0 [100, 50] initCpu).irq_count ∧
    (applySamples 0 [100, 50] initCpu).sum_irq /
        (applySamples 0 [100, 50] initCpu).irq_count ≤
      (applySamples 0 [100, 50] initCpu).max_irq :=
  (c2_average_bound 0 [100, 50] (by decide)).1 rfl (by decide)

/-- C5: in a freshly allocated store every CPU entry has both counts `0`
and both min fields at the `~0` sentinel; applying the first sample of a
context with latency `L` makes that context's min, max and cur all equal
`L`. -/
theorem c5_unset_to_set (nr_cpus cpu : Nat) (hcpu : cpu < nr_cpus)
    (L : Nat) (hL : L < U64_MOD) :
    ((timerlat_alloc_top nr_cpus).cpu_data.getD cpu initCpu).irq_count = 0 ∧
    ((timerlat_alloc_top nr_cpus).cpu_data.getD cpu initCpu).thread_count = 0 ∧
    ((timerlat_alloc_top nr_cpus).cpu_data.getD cpu initCpu).min_irq = U64_MOD - 1 ∧
    ((timerlat_alloc_top nr_cpus).cpu_data.getD cpu initCpu).min_thread = U64_MOD - 1 ∧
    (timerlat_top_update_cpu
      ((timerlat_alloc_top nr_cpus).cpu_data.getD cpu initCpu) 0 L).min_irq = L ∧
    (timerlat_top_update_cpu
      ((timerlat_alloc_top nr_cpus).cpu_data.getD cpu initCpu) 0 L).max_irq = L ∧
    (timerlat_top_update_cpu
      ((timerlat_alloc_top nr_cpus).cpu_data.getD cpu initCpu) 0 L).cur_irq = L ∧
    (timerlat_top_update_cpu
      ((timerlat_alloc_top nr_cpus).cpu_data.getD cpu initCpu) 1 L).min_thread = L ∧
    (timerlat_top_update_cpu
      ((timerlat_alloc_top nr_cpus).cpu_data.getD cpu initCpu) 1 L).max_thread = L ∧
    (timerlat_top_update_cpu
      ((timerlat_alloc_top nr_cpus).cpu_data.getD cpu initCpu) 1 L).cur_thread = L := by
  have hentry : (timerlat_alloc_top nr_cpus).cpu_data.getD cpu initCpu = initCpu := by
    unfold timerlat_alloc_top
    rcases Nat.lt_or_ge cpu nr_cpus with h | h
    · rw [List.getD_eq_getElem _ _ (by simpa using h)]
      simp
    · rw [List.getD_eq_default _ _ (by simpa using h)]
  rw [hentry]
  have hmin : update_min initCpu.min_irq L = L := by
    simp only [initCpu]; unfold update_min; split <;> omega
  have hmax : update_max initCpu.max_irq L = L := by
    simp only [initCpu]; unfold update_max; split <;> omega
  refine ⟨rfl, rfl, rfl, rfl, ?_, ?_, rfl, ?_, ?_, rfl⟩ <;>
    simp [timerlat_top_update_cpu, initCpu, update_min, update_max] <;> omega

/-- Witness for C5 at `nr_cpus = 2`, `cpu = 0`, `L = 5`. -/
theorem c5_unset_to_set_witness :
    ((timerlat_alloc_top 2).cpu_data.getD 0 initCpu).irq_count = 0 ∧
    ((timerlat_alloc_top 2).cpu_data.getD 0 initCpu).thread_count = 0 ∧
    ((timerlat_alloc_top 2).cpu_data.getD 0 initCpu).min_irq = U64_MOD - 1 ∧
    ((timerlat_alloc_top 2).cpu_data.getD 0 initCpu).min_thread = U64_MOD - 1 ∧
    (timerlat_top_update_cpu
      ((timerlat_alloc_top 2).cpu_data.getD 0 initCpu) 0 5).min_irq = 5 ∧
    (timerlat_top_update_cpu
      ((timerlat_alloc_top 2).cpu_data.getD 0 initCpu) 0 5).max_irq = 5 ∧
    (timerlat_top_update_cpu
      ((timerlat_alloc_top 2).cpu_data.getD 0 initCpu) 0 5).cur_irq = 5 ∧
    (timerlat_top_update_cpu
      ((timerlat_alloc_top 2).cpu_data.getD 0 initCpu) 1 5).min_thread = 5 ∧
    (timerlat_top_update_cpu
      ((timerlat_alloc_top 2).cpu_data.getD 0 initCpu) 1 5).max_thread = 5 ∧
    (timerlat_top_update_cpu
      ((timerlat_alloc_top 2).cpu_data.getD 0 initCpu) 1 5).cur_thread = 5 :=
  c5_unset_to_set 2 0 (by decide) 5 (by decide)

/-- C6: applying any permutation of a same-CPU same-context sample
sequence yields the same count, min, sum and max (for both contexts'
fields); `cur` is the only order-dependent aggregate and equals the
latency of the most recently applied sample. -/
theorem c6_permutation_invariance (t : Nat) (l l' : List Nat)
    (d : timerlat_top_cpu) (hperm : l.Perm l') :
    ((applySamples t l d).irq_count = (applySamples t l' d).irq_count ∧
     (applySamples t l d).thread_count = (applySamples t l' d).thread_count ∧
     (applySamples t l d).min_irq = (applySamples t l' d).min_irq ∧
     (applySamples t l d).sum_irq = (applySamples t l' d).sum_irq ∧
     (applySamples t l d).max_irq = (applySamples t l' d).max_irq ∧
     (applySamples t l d).min_thread = (applySamples t l' d).min_thread ∧
     (applySamples t l d).sum_thread = (applySamples t l' d).sum_thread ∧
     (applySamples t l d).max_thread = (applySamples t l' d).max_thread) ∧
    (∀ x, l.getLast? = some x →
      (t = 0 → (applySamples t l d).cur_irq = x) ∧
      (t ≠ 0 → (applySamples t l d).cur_thread = x)) := by
  have hlen := hperm.length_eq
  have hmin := foldl_right_comm_perm update_min update_min_right_comm hperm
  have hsum := foldl_right_comm_perm update_sum update_sum_right_comm hperm
  have hmax := foldl_right_comm_perm update_max update_max_right_comm hperm
  rcases Nat.eq_zero_or_pos t with rfl | htpos
  · rw [applySamples_irq l d, applySamples_irq l' d]
    refine ⟨⟨by rw [hlen], rfl, hmin _, hsum _, hmax _, rfl, rfl, rfl⟩, ?_⟩
    intro x hx
    refine ⟨fun _ => ?_, fun ht => absurd rfl ht⟩
    simp [hx]
  · have ht : t ≠ 0 := Nat.pos_iff_ne_zero.mp htpos
    rw [applySamples_thread t ht l d, applySamples_thread t ht l' d]
    refine ⟨⟨rfl, by rw [hlen], rfl, rfl, rfl, hmin _, hsum _, hmax _⟩, ?_⟩
    intro x hx
    refine ⟨fun h0 => absurd h0 ht, fun _ => ?_⟩
    simp [hx]

/-- Witness for C6 at the IRQ sequences `[100, 50]` and `[50, 100]`. -/
theorem c6_permutation_invariance_witness :
    (applySamples 0 [100, 50] initCpu).min_irq =
      (applySamples 0 [50, 100] initCpu).min_irq ∧
    (applySamples 0 [100, 50] initCpu).sum_irq =
      (applySamples 0 [50, 100] initCpu).sum_irq ∧
    (applySamples 0 [100, 50] initCpu).cur_irq = 50 := by
  have h := c6_permutation_invariance 0 [100, 50] [50, 100] initCpu
    (List.Perm.swap 50 100 [])
  exact ⟨h.1.2.2.1, h.1.2.2.2.1, (h.2 50 (by decide)).1 rfl⟩

/-! The monitor loop. -/

theorem runLoop_true_eq (it : IterIn) (rest : List IterIn) :
    runLoop true (it :: rest) =
      if it.stop_tracing = true then some (0, ExitKind.stopped)
      else if it.ingest_ok = false then some (0, ExitKind.ingestErr)
      else if it.trace_is_on = false then some (0, ExitKind.traceOff)
      else runLoop true rest := by
  simp only [runLoop]
  split
  · rfl
  · split
    · rfl
    · split
      · simp
      · cases runLoop true rest <;> simp

theorem runLoop_quiet_renders (iters : List IterIn) :
    ∀ n k, runLoop true iters = some (n, k) → n = 0 := by
  induction iters with
  | nil => intro n k h; simp [runLoop] at h
  | cons it rest ih =>
    intro n k h
    rw [runLoop_true_eq] at h
    split at h
    · simp only [Option.some.injEq, Prod.mk.injEq] at h
      exact h.1.symm
    · split at h
      · simp only [Option.some.injEq, Prod.mk.injEq] at h
        exact h.1.symm
      · split at h
        · simp only [Option.some.injEq, Prod.mk.injEq] at h
          exact h.1.symm
        · exact ih n k h

/-- C3: whenever the `RUNNING` loop of `timerlat_top_main` exits normally
(by the stop flag or by the tracer reporting inactive, not by an ingestion
error), exactly one full-statistics render occurs after the loop,
regardless of the quiet flag; and with quiet set, no render occurs during
any loop iteration. -/
theorem c3_final_render (quiet trace_output : Bool) (iters : List IterIn)
    (final_trace_on : Bool) (n : Nat) (k : ExitKind) (out : MainOut)
    (hrun : runLoop quiet iters = some (n, k)) (hk : k ≠ ExitKind.ingestErr)
    (hmain : timerlat_top_main quiet trace_output iters final_trace_on = some out) :
    out.final_renders = 1 ∧ (quiet = true → out.loop_renders = 0) := by
  unfold timerlat_top_main at hmain
  rw [hrun] at hmain
  simp only [Option.map_some', Option.some.injEq] at hmain
  cases k with
  | ingestErr => exact absurd rfl hk
  | stopped =>
    subst hmain
    exact ⟨rfl, fun hq => by subst hq; exact runLoop_quiet_renders iters n _ hrun⟩
  | traceOff =>
    subst hmain
    exact ⟨rfl, fun hq => by subst hq; exact runLoop_quiet_renders iters n _ hrun⟩

/-- Witness for C3: quiet run stopped by the flag at the first check. -/
theorem c3_final_render_witness :
    ({ loop_renders := 0, final_renders := 1, return_value := 0
       saved_trace := false, freed := true } : MainOut).final_renders = 1 ∧
    (true = true →
      ({ loop_renders := 0, final_renders := 1, return_value := 0
         saved_trace := false, freed := true } : MainOut).loop_renders = 0) :=
  c3_final_render true false [⟨true, true, true⟩] true 0 ExitKind.stopped _
    (by decide) (by decide) (by decide)

/-- C7 (counterexample): the stop flag — not the tracer's deactivation —
ends the loop at the very first check, yet because the post-loop
`tracefs_trace_is_on` query happens to report inactive and an output path
is configured, the recorder is invoked anyway. -/
theorem c7_trace_save_cex :
    runLoop false [⟨true, true, true⟩] = some (0, ExitKind.stopped) ∧
    (timerlat_top_main false true [⟨true, true, true⟩] false).map
        MainOut.saved_trace = some true := by decide

/-- C7 (amended): after the monitor loop exits, the external recorder is
invoked to persist the last trace window if and only if the loop did not
exit on an ingestion error, a fresh post-loop tracing-active query reports
the tracer inactive, and a snapshot output path was configured — the code
re-queries the tracer rather than recording which condition ended the
loop. -/
theorem c7_trace_save (quiet trace_output : Bool) (iters : List IterIn)
    (final_trace_on : Bool) (n : Nat) (k : ExitKind) (out : MainOut)
    (hrun : runLoop quiet iters = some (n, k))
    (hmain : timerlat_top_main quiet trace_output iters final_trace_on = some out) :
    out.saved_trace = true ↔
      (k ≠ ExitKind.ingestErr ∧ final_trace_on = false ∧ trace_output = true) := by
  unfold timerlat_top_main at hmain
  rw [hrun] at hmain
  simp only [Option.map_some', Option.some.injEq] at hmain
  cases k <;> subst hmain <;> simp

/-- Witness for C7 (amended): loop exits by the tracer going inactive, the
re-query still reports inactive, and an output path is configured. -/
theorem c7_trace_save_witness :
    ({ loop_renders := 1, final_renders := 1, return_value := 0
       saved_trace := true, freed := true } : MainOut).saved_trace = true ↔
      (ExitKind.traceOff ≠ ExitKind.ingestErr ∧ false = false ∧ true = true) :=
  c7_trace_save false true [⟨false, true, false⟩] false 1 ExitKind.traceOff _
    (by decide) (by decide)

/-- C8: the modelled process result is `0` after a normal or signaled stop
and `1` when sample ingestion reports an error; on the ingestion-error
path the loop aborts at that iteration with no render in it, ignores any
remaining schedule, performs no final render, and still frees the
allocated data. -/
theorem c8_exit_status (quiet trace_output : Bool) (iters : List IterIn)
    (final_trace_on : Bool) (n : Nat) (k : ExitKind) (out : MainOut)
    (hrun : runLoop quiet iters = some (n, k))
    (hmain : timerlat_top_main quiet trace_output iters final_trace_on = some out) :
    out.freed = true ∧
    (k ≠ ExitKind.ingestErr → out.return_value = 0) ∧
    (k = ExitKind.ingestErr →
      out.return_value = 1 ∧ out.final_renders = 0 ∧ out.saved_trace = false) ∧
    (∀ it rest, it.stop_tracing = false → it.ingest_ok = false →
      runLoop quiet (it :: rest) = some (0, ExitKind.ingestErr)) := by
  have habort : ∀ it : IterIn, ∀ rest : List IterIn,
      it.stop_tracing = false → it.ingest_ok = false →
      runLoop quiet (it :: rest) = some (0, ExitKind.ingestErr) := by
    intro it rest h1 h2
    unfold runLoop
    rw [h1, h2]
    simp
  unfold timerlat_top_main at hmain
  rw [hrun] at hmain
  simp only [Option.map_some', Option.some.injEq] at hmain
  cases k with
  | ingestErr =>
    subst hmain
    exact ⟨rfl, fun h => absurd rfl h, fun _ => ⟨rfl, rfl, rfl⟩, habort⟩
  | stopped =>
    subst hmain
    exact ⟨rfl, fun _ => rfl, fun h => by simp at h, habort⟩
  | traceOff =>
    subst hmain
    exact ⟨rfl, fun _ => rfl, fun h => by simp at h, habort⟩

/-- Witness for C8: a run whose second iteration hits an ingestion error. -/
theorem c8_exit_status_witness :
    ({ loop_renders := 1, final_renders := 0, return_value := 1
       saved_trace := false, freed := true } : MainOut).freed = true ∧
    (ExitKind.ingestErr ≠ ExitKind.ingestErr →
      ({ loop_renders := 1, final_renders := 0, return_value := 1
         saved_trace := false, freed := true } : MainOut).return_value = 0) ∧
    (ExitKind.ingestErr = ExitKind.ingestErr →
      ({ loop_renders := 1, final_renders := 0, return_value := 1
         saved_trace := false, freed := true } : MainOut).return_value = 1 ∧
      ({ loop_renders := 1, final_renders := 0, return_value := 1
         saved_trace := false, freed := true } : MainOut).final_renders = 0 ∧
      ({ loop_renders := 1, final_renders := 0, return_value := 1
         saved_trace := false, freed := true } : MainOut).saved_trace = false) ∧
    (∀ it rest, it.stop_tracing = false → it.ingest_ok = false →
      runLoop false (it :: rest) = some (0, ExitKind.ingestErr)) :=
  c8_exit_status false true [⟨false, true, true⟩, ⟨false, false, true⟩] true 1
    ExitKind.ingestErr _ (by decide) (by decide)

/-! The renderer. -/

theorem flatten_map_nil {α : Type} (L : List Nat) (f : Nat → List α)
    (hf : ∀ i, f i = []) : (L.map f).flatten = [] := by
  induction L with
  | nil => rfl
  | cons x xs ih => simp [hf, ih]

theorem rowHead_mem_print (params : timerlat_top_params)
    (data : timerlat_top_data) (i j c : Nat)
    (h : OutItem.rowHead j c ∈ timerlat_top_print params data i) : j = i := by
  simp only [timerlat_top_print] at h
  split at h
  · simp at h
  · split at h
    · simp at h
    · split at h <;> split at h <;> simp_all

/-- C4 (counterexample): a full-statistics render with divisor `0` is not
silent — the header is still emitted (here with quiet set, so even without
the screen clear), refuting "produces no output at all". -/
theorem c4_zero_divisor_cex :
    timerlat_print_stats false 1
      { quiet := true, output_divisor := 0, cpus := false
        monitored_cpus := fun _ => false, trace_output := false }
      (timerlat_alloc_top 1) ≠ [] := by decide

/-- C4 (amended): with divisor `0` no division happens and no per-CPU text
is produced: every per-CPU render call returns nothing, and the
full-statistics render emits only the screen clear (when not quiet and not
in debug mode) and the header. -/
theorem c4_zero_divisor (config_debug : Bool) (nr_cpus : Nat)
    (params : timerlat_top_params) (data : timerlat_top_data)
    (hdiv : params.output_divisor = 0) :
    (∀ cpu, timerlat_top_print params data cpu = []) ∧
    timerlat_print_stats config_debug nr_cpus params data =
      (if params.quiet = false then clear_terminal config_debug else []) ++
        [OutItem.header] := by
  have hprint : ∀ cpu, timerlat_top_print params data cpu = [] := by
    intro cpu
    simp only [timerlat_top_print]
    rw [if_pos hdiv]
  refine ⟨hprint, ?_⟩
  simp only [timerlat_print_stats, timerlat_top_header]
  have hrows : ∀ i, (if params.cpus = true ∧ params.monitored_cpus i = false
      then [] else timerlat_top_print params data i) = ([] : List OutItem) := by
    intro i
    split
    · rfl
    · exact hprint i
  rw [flatten_map_nil _ _ hrows]
  simp

/-- Witness for C4 (amended) on a two-CPU store with one recorded sample. -/
theorem c4_zero_divisor_witness :
    (∀ cpu, timerlat_top_print
      { quiet := false, output_divisor := 0, cpus := false
        monitored_cpus := fun _ => true, trace_output := false }
      (timerlat_alloc_top 2) cpu = []) ∧
    timerlat_print_stats false 2
      { quiet := false, output_divisor := 0, cpus := false
        monitored_cpus := fun _ => true, trace_output := false }
      (timerlat_alloc_top 2) =
      (if false = false then clear_terminal false else []) ++ [OutItem.header] :=
  c4_zero_divisor false 2 _ (timerlat_alloc_top 2) rfl

/-- C9: with a positive divisor, a CPU whose IRQ and thread counts are both
zero contributes no text to the rendered output: its per-CPU render call
returns nothing and no row head for it occurs anywhere in the
full-statistics render. -/
theorem c9_omission (config_debug : Bool) (nr_cpus : Nat)
    (params : timerlat_top_params) (data : timerlat_top_data) (cpu : Nat)
    (hdiv : 0 < params.output_divisor)
    (hirq : (data.cpu_data.getD cpu initCpu).irq_count = 0)
    (hthr : (data.cpu_data.getD cpu initCpu).thread_count = 0) :
    timerlat_top_print params data cpu = [] ∧
    ∀ c, OutItem.rowHead cpu c ∉
      timerlat_print_stats config_debug nr_cpus params data := by
  have hempty : timerlat_top_print params data cpu = [] := by
    simp only [timerlat_top_print]
    rw [if_neg (by omega), if_pos ⟨hirq, hthr⟩]
  refine ⟨hempty, ?_⟩
  intro c hc
  simp only [timerlat_print_stats, timerlat_top_header, clear_terminal,
    List.mem_append, List.mem_flatten, List.mem_map, List.mem_range,
    List.mem_singleton] at hc
  rcases hc with (hc | hc) | ⟨lsub, ⟨i, hi, hmap⟩, hmem⟩
  · split at hc
    · split at hc <;> simp at hc
    · simp at hc
  · simp at hc
  · rw [← hmap] at hmem
    split at hmem
    · simp at hmem
    · have hji := rowHead_mem_print params data i cpu c hmem
      subst hji
      rw [hempty] at hmem
      simp at hmem

/-- Witness for C9 on a fresh two-CPU store (all counts zero). -/
theorem c9_omission_witness :
    timerlat_top_print
      { quiet := false, output_divisor := 1000, cpus := false
        monitored_cpus := fun _ => true, trace_output := false }
      (timerlat_alloc_top 2) 0 = [] ∧
    ∀ c, OutItem.rowHead 0 c ∉
      timerlat_print_stats false 2
        { quiet := false, output_divisor := 1000, cpus := false
          monitored_cpus := fun _ => true, trace_output := false }
        (timerlat_alloc_top 2) :=
  c9_omission false 2 _ (timerlat_alloc_top 2) 0 (by decide) (by decide) (by decide)

/-- C10: the sample path forwards the raw record CPU to the per-CPU table
with no bounds check anywhere: the handler is literally the unvalidated
update, the update succeeds (the out-of-bounds error branch of the total
embedding is unreachable) exactly when `cpu < nr_cpus`, and the table size
is fixed at allocation to `nr_cpus` entries. -/
theorem c10_unchecked_indexing (data : timerlat_top_data) (record : tep_record)
    (hlen : data.cpu_data.length = data.nr_cpus) :
    timerlat_top_handler data record =
      timerlat_top_update data record.cpu record.context record.timer_latency ∧
    ((timerlat_top_handler data record).isSome ↔ record.cpu < data.nr_cpus) ∧
    (¬ record.cpu < data.nr_cpus → timerlat_top_handler data record = none) ∧
    ∀ n, (timerlat_alloc_top n).cpu_data.length = n := by
  refine ⟨rfl, ?_, ?_, fun n => by simp [timerlat_alloc_top]⟩
  · unfold timerlat_top_handler timerlat_top_update
    split
    · next h => simp [hlen ▸ h]
    · next h => simp [hlen ▸ h]
  · intro hge
    unfold timerlat_top_handler timerlat_top_update
    rw [dif_neg (by omega : ¬ record.cpu < data.cpu_data.length)]

/-- Witness for C10: a two-CPU store with an event claiming CPU 5 — the
unvalidated index reaches the error branch. -/
theorem c10_unchecked_indexing_witness :
    (timerlat_top_handler (timerlat_alloc_top 2) ⟨5, 0, 7⟩ =
      timerlat_top_update (timerlat_alloc_top 2) 5 0 7) ∧
    ((timerlat_top_handler (timerlat_alloc_top 2) ⟨5, 0, 7⟩).isSome ↔
      5 < (timerlat_alloc_top 2).nr_cpus) ∧
    (¬ 5 < (timerlat_alloc_top 2).nr_cpus →
      timerlat_top_handler (timerlat_alloc_top 2) ⟨5, 0, 7⟩ = none) ∧
    ∀ n, (timerlat_alloc_top n).cpu_data.length = n :=
  c10_unchecked_indexing (timerlat_alloc_top 2) ⟨5, 0, 7⟩ (by decide)

end TimerlatTop
